import Mathlib

/-!
Shallow embedding of the sample AI agent repository.

The embedding covers the two source files:

* `src/agent.py` — the bounded agentic decision loop (`AIAgent.execute_task`),
  its tool registry (`_initialize_tools`), the decision step
  (`_decide_next_action`), the three capability wrappers, and the memory log
  (`AgentState`, `update_memory`).
* `src/app.py` — the asynchronous task lifecycle layer: the Redis-backed task
  record store, `create_task`, `execute_task_async`, and `get_task_status`.

External collaborators (the OpenAI client, the Tavily client, Redis itself,
wall-clock time) are modelled as parameters: an `Env` supplies, per loop
iteration, the outcome of the oracle call, the outcome of the external call a
capability performs, and the current time.  Redis is modelled as a pure
key-value map with per-key field hashes and a passive TTL.  Python
exceptions that the code does not catch are modelled with `Except String`;
exceptions that the code catches are handled where the source catches them.
-/

namespace Agent

/-- Outcome of one external network call made inside a capability wrapper or
inside the oracle client: the call either returns a payload or raises an
exception carrying a message. -/
inductive ExtOutcome where
  | ok (payload : String)
  | exn (msg : String)
deriving DecidableEq

/-- Result dictionary returned by a capability wrapper.  The source returns
either a dict tagged with field status = success carrying one payload field
(whose key differs per tool: results, analysis or summary) or a dict tagged
error with a message.  `key` records which payload key the tool used. -/
inductive ToolRes where
  | success (key payload : String)
  | error (message : String)
deriving DecidableEq

/-- The status field that every capability result dict carries. -/
def ToolRes.status : ToolRes → String
  | .success _ _ => "success"
  | .error _ => "error"

/-- The JSON dict produced by parsing the oracle response, restricted to the
keys the loop actually reads: status, message, tool_name and input.  A key the
response does not contain is `none`; reading such a key with subscript
notation raises a KeyError in the source. -/
structure ActionDict where
  status : Option String := none
  message : Option String := none
  tool_name : Option String := none
  input : Option String := none
deriving DecidableEq

/-- Outcome of one oracle invocation as seen by `_decide_next_action`: either
the API call raised, or the returned content failed to parse as JSON (both
are caught by the same try/except in the source and folded into `raises`),
or a JSON dict was obtained. -/
inductive OracleOutcome where
  | raises (msg : String)
  | returns (a : ActionDict)
deriving DecidableEq

/-- Model of `AIAgent._decide_next_action`: the try block either yields the
parsed JSON dict, or the except block converts the exception into a dict
with status error and a message. -/
def decide_next_action (o : OracleOutcome) : ActionDict :=
  match o with
  | .raises msg => { status := some "error", message := some msg }
  | .returns a => a

/-- One record appended by `AIAgent.update_memory`: a timestamp, the action
dict that was executed and the result it produced. -/
structure MemEntry where
  timestamp : Nat
  action : ActionDict
  result : ToolRes
deriving DecidableEq

/-- Model of the pydantic `AgentState`: the current task, the append-only
memory log and the (unused) auxiliary context mapping. -/
structure AgentState where
  current_task : String := ""
  memory : List MemEntry := []
  context : List (String × String) := []
deriving DecidableEq

/-- One element of the list returned by `execute_task`.  The source appends
either a dict with the single key error (the terminal decision-failure and
tool-not-found outcomes) or a full step dict with step number, action and
result. -/
inductive Entry where
  | errorEntry (msg : String)
  | stepEntry (step : Nat) (action : ActionDict) (result : ToolRes)
deriving DecidableEq

/-- Model of the `Tool` pydantic class: a name, a description and the wrapped
capability.  The capability takes the outcome of its one external call as an
extra argument, since that call is an external collaborator. -/
structure Tool where
  name : String
  description : String
  function : ExtOutcome → String → ToolRes

/-- Model of `AIAgent._search_web`: on a successful Tavily call return a
success dict with key results, on an exception return an error dict. -/
def search_web (ext : ExtOutcome) (_query : String) : ToolRes :=
  match ext with
  | .ok r => .success "results" r
  | .exn e => .error e

/-- Model of `AIAgent._analyze_text`: success dict with key analysis, or an
error dict when the OpenAI call raises. -/
def analyze_text (ext : ExtOutcome) (_text : String) : ToolRes :=
  match ext with
  | .ok r => .success "analysis" r
  | .exn e => .error e

/-- Model of `AIAgent._summarize_text`: success dict with key summary, or an
error dict when the OpenAI call raises. -/
def summarize_text (ext : ExtOutcome) (_text : String) : ToolRes :=
  match ext with
  | .ok r => .success "summary" r
  | .exn e => .error e

/-- Model of `AIAgent._initialize_tools`: the fixed registry built at
startup, in source order. -/
def tools : List Tool :=
  [ { name := "web_search", description := "Search the web for information",
      function := search_web },
    { name := "analyze_text", description := "Analyze text using OpenAI",
      function := analyze_text },
    { name := "summarize", description := "Summarize given text",
      function := summarize_text } ]

/-- Model of the registry lookup `next((t for t in self.tools if t.name ==
action["tool_name"]), None)`. -/
def findTool (n : String) : Option Tool :=
  List.find? (fun t => t.name == n) tools

/-- Model of `AIAgent.update_memory`: append one record with the current
time, the action and the result to the memory list. -/
def update_memory (st : AgentState) (now : Nat) (action : ActionDict)
    (result : ToolRes) : AgentState :=
  { st with memory := st.memory ++ [⟨now, action, result⟩] }

/-- The external world, indexed by loop iteration.  Each iteration of the
while loop in `execute_task` performs at most one oracle call and at most one
capability call; `oracle i`, `ext i` and `clock i` are the outcomes seen in
iteration `i` (equivalently, when the results list has length `i`). -/
structure Env where
  oracle : Nat → OracleOutcome
  ext : Nat → ExtOutcome
  clock : Nat → Nat

/-- The while loop of `AIAgent.execute_task`.  `fuel` is the number of
remaining iterations `max_steps - current_step`, so the guard
`current_step < max_steps` of the source is exactly `fuel > 0`.  The
`Except.error` results model the uncaught KeyError raised when the parsed
oracle dict lacks the tool_name or input key.  Each recursive call models
`current_step += 1`. -/
def execLoop (env : Env) : Nat → Nat → AgentState → List Entry →
    AgentState × Except String (List Entry)
  | 0, _, st, results => (st, Except.ok results)
  | fuel + 1, current_step, st, results =>
    let action := decide_next_action (env.oracle results.length)
    if action.status = some "error" then
      (st, Except.ok (results ++ [Entry.errorEntry "Failed to decide next action"]))
    else
      match action.tool_name with
      | none => (st, Except.error "KeyError: tool_name")
      | some tn =>
        match findTool tn with
        | none =>
          (st, Except.ok (results ++ [Entry.errorEntry ("Tool " ++ tn ++ " not found")]))
        | some tool =>
          match action.input with
          | none => (st, Except.error "KeyError: input")
          | some inp =>
            let result := tool.function (env.ext results.length) inp
            let st' := update_memory st (env.clock results.length) action result
            let results' := results ++ [Entry.stepEntry (current_step + 1) action result]
            if result.status = "success" then (st', Except.ok results')
            else execLoop env fuel (current_step + 1) st' results'

/-- Model of `AIAgent.execute_task`: set `current_task` on the (possibly
reused) agent state, then run the while loop with `max_steps = 5` starting
from `current_step = 0` and an empty results list.  The returned pair is the
agent state after the call (the source mutates `self.state`) and either the
results list or an uncaught exception. -/
def execute_task (env : Env) (st : AgentState) (task : String) :
    AgentState × Except String (List Entry) :=
  let st0 := { st with current_task := task }
  let max_steps := 5
  execLoop env max_steps 0 st0 []

/-!
Model of `src/app.py`.  Redis is modelled as a map from keys to hash entries
with an optional absolute expiry time.  `hset` updates the named fields of a
live entry (preserving its TTL, as Redis does) and creates a TTL-free entry
when the key is absent or already expired; `expire` sets the expiry of a live
key and is a no-op on an absent one; `hgetall` of an expired or absent key is
empty.  The module-level `agent = AIAgent()` singleton is modelled by
threading one `AgentState` value through the lifecycle functions.
-/

/-- The value stored in the results field of a task hash: either an
uninterpreted raw string (`create_task` stores the empty string there) or the
JSON serialization of a results list written by `execute_task_async`. -/
inductive ResultsField where
  | raw (s : String)
  | jsonOf (l : List Entry)
deriving DecidableEq

/-- The field hash Redis holds for one task key.  A field the hash does not
contain is `none`. -/
structure TaskHash where
  task : Option String := none
  status : Option String := none
  results : Option ResultsField := none
  error : Option String := none
deriving DecidableEq

/-- The fields one `hset` call writes; `none` means the call does not touch
that field. -/
structure HashUpdate where
  task : Option String := none
  status : Option String := none
  results : Option ResultsField := none
  error : Option String := none
deriving DecidableEq

/-- Apply one `hset` field map to an existing hash: written fields are
replaced, the others are kept. -/
def applyUpdate (h : TaskHash) (u : HashUpdate) : TaskHash :=
  { task := u.task <|> h.task,
    status := u.status <|> h.status,
    results := u.results <|> h.results,
    error := u.error <|> h.error }

/-- One Redis key together with its optional absolute expiry time. -/
structure StoreEntry where
  hash : TaskHash
  expires_at : Option Nat
deriving DecidableEq

/-- The Redis database, as a map from key to entry. -/
abbrev Store := String → Option StoreEntry

/-- The empty database. -/
def emptyStore : Store := fun _ => none

/-- Whether an entry is still live at time `now` (a key with no TTL never
expires). -/
def liveAt (now : Nat) (e : StoreEntry) : Bool :=
  match e.expires_at with
  | none => true
  | some t => now < t

/-- Look up a key, treating an expired entry as absent (Redis deletes expired
keys lazily; they are unobservable either way). -/
def lookupLive (s : Store) (now : Nat) (k : String) : Option StoreEntry :=
  match s k with
  | none => none
  | some e => if liveAt now e then some e else none

/-- Model of `redis_client.hset(key, mapping=...)` (and of the single-field
form): update the fields of a live entry keeping its TTL, or create a fresh
TTL-free entry holding exactly the written fields. -/
def hset (s : Store) (now : Nat) (k : String) (u : HashUpdate) : Store :=
  fun k' =>
    if k' = k then
      match lookupLive s now k with
      | some e => some { e with hash := applyUpdate e.hash u }
      | none => some { hash := applyUpdate {} u, expires_at := none }
    else s k'

/-- Model of `redis_client.expire(key, secs)`: set the expiry of a live key;
no effect when the key is absent or already expired. -/
def expire (s : Store) (now : Nat) (k : String) (secs : Nat) : Store :=
  match lookupLive s now k with
  | some e =>
    fun k' => if k' = k then some { e with expires_at := some (now + secs) } else s k'
  | none => s

/-- Model of `redis_client.hgetall(key)`: the field hash of a live key,
`none` standing for the empty dict returned for absent or expired keys. -/
def hgetall (s : Store) (now : Nat) (k : String) : Option TaskHash :=
  (lookupLive s now k).map (·.hash)

/-- The status field a key holds in the raw database, ignoring expiry. -/
def rawStatus (s : Store) (k : String) : Option String :=
  (s k).bind (fun e => e.hash.status)

/-- The Redis key used for a task identifier, `f"task:{task_id}"`. -/
def taskKey (task_id : String) : String := "task:" ++ task_id

/-- The JSON body returned by a successful `create_task` call. -/
structure CreateResponse where
  task_id : String
  status : String
  message : String
deriving DecidableEq

/-- The store mutation performed by `create_task`: write the initial pending
record and give it a one hour TTL. -/
def create_task_store (s : Store) (now : Nat) (task_id task : String) : Store :=
  expire
    (hset s now (taskKey task_id)
      { task := some task, status := some "pending",
        results := some (.raw ""), error := some "" })
    now (taskKey task_id) 3600

/-- Model of the `POST /tasks` handler `create_task`.  `data` is the task
field of the request body, `none` when absent (the handler then returns 400,
modelled as `none`, before touching the store).  The spawned background
thread is modelled separately by `execute_task_async`. -/
def create_task (s : Store) (now : Nat) (task_id : String) (data : Option String) :
    Option (Store × CreateResponse) :=
  match data with
  | none => none
  | some task =>
    some (create_task_store s now task_id task,
      { task_id := task_id, status := "pending", message := "Task created successfully" })

/-- Model of `execute_task_async`: mark the record running, run the agent,
then write either the completed record with the serialized results and an
empty error field, or the failed record with the exception message.  `t_run`
and `t_done` are the times of the two store writes.  The returned pair also
carries the agent state after the call, since the module-level agent is
shared. -/
def execute_task_async (env : Env) (st : AgentState) (s : Store)
    (t_run t_done : Nat) (task_id task_description : String) :
    AgentState × Store :=
  let s1 := hset s t_run (taskKey task_id) { status := some "running" }
  match execute_task env st task_description with
  | (st', Except.ok results) =>
    (st', hset s1 t_done (taskKey task_id)
      { status := some "completed", results := some (.jsonOf results), error := some "" })
  | (st', Except.error e) =>
    (st', hset s1 t_done (taskKey task_id)
      { status := some "failed", error := some e })

/-- The JSON body returned by a successful `GET /tasks/<id>` call.  The
results and error keys are present only when the corresponding branch of the
handler added them. -/
structure StatusResponse where
  task_id : String
  task : String
  status : String
  results : Option (List Entry)
  error : Option String
deriving DecidableEq

/-- Outcome of the `GET /tasks/<id>` handler: the 404 branch, an uncaught
exception from `json.loads` (HTTP 500), or the assembled response. -/
inductive GetStatusResult where
  | notFound
  | raised (msg : String)
  | ok (r : StatusResponse)
deriving DecidableEq

/-- Model of `json.loads(task_data.get("results", "[]"))`: an absent field
defaults to the empty list, a serialized list deserializes to itself, and the
raw placeholder string (the empty string written at creation) is not valid
JSON, so loading it raises. -/
def decodeResults : Option ResultsField → Except String (List Entry)
  | none => .ok []
  | some (.jsonOf l) => .ok l
  | some (.raw _) => .error "json.loads: invalid JSON"

/-- The response assembly part of the `GET /tasks/<id>` handler: the base
response always carries identifier, task and status; the results key is
added only in the completed branch, the error key only in the failed
branch. -/
def buildStatusResponse (task_id : String) (h : TaskHash) : GetStatusResult :=
  let status := h.status.getD "unknown"
  let base : StatusResponse :=
    { task_id := task_id, task := h.task.getD "", status := status,
      results := none, error := none }
  if status = "completed" then
    match decodeResults h.results with
    | .ok l => .ok { base with results := some l }
    | .error m => .raised m
  else if status = "failed" then
    .ok { base with error := some (h.error.getD "Unknown error") }
  else .ok base

/-- Model of the `GET /tasks/<id>` handler `get_task_status`: fetch the hash
and assemble the response, or report 404 for an absent or expired key. -/
def get_task_status (s : Store) (now : Nat) (task_id : String) : GetStatusResult :=
  match hgetall s now (taskKey task_id) with
  | none => .notFound
  | some h => buildStatusResponse task_id h

/-! Unfolding lemmas for the loop. -/

/-- The loop with no remaining budget returns the accumulated results. -/
theorem execLoop_zero (env : Env) (current_step : Nat) (st : AgentState)
    (results : List Entry) :
    execLoop env 0 current_step st results = (st, Except.ok results) := rfl

/-- One unfolding of the loop body when at least one iteration remains. -/
theorem execLoop_succ (env : Env) (fuel current_step : Nat) (st : AgentState)
    (results : List Entry) :
    execLoop env (fuel + 1) current_step st results =
      (let action := decide_next_action (env.oracle results.length)
       if action.status = some "error" then
         (st, Except.ok (results ++ [Entry.errorEntry "Failed to decide next action"]))
       else
         match action.tool_name with
         | none => (st, Except.error "KeyError: tool_name")
         | some tn =>
           match findTool tn with
           | none =>
             (st, Except.ok (results ++ [Entry.errorEntry ("Tool " ++ tn ++ " not found")]))
           | some tool =>
             match action.input with
             | none => (st, Except.error "KeyError: input")
             | some inp =>
               let result := tool.function (env.ext results.length) inp
               let st' := update_memory st (env.clock results.length) action result
               let results' := results ++ [Entry.stepEntry (current_step + 1) action result]
               if result.status = "success" then (st', Except.ok results')
               else execLoop env fuel (current_step + 1) st' results') := rfl

/-- C2: if the first step capability invocation returns a success-tagged
result, the loop terminates immediately after recording that step, and the
returned trajectory is exactly the one successful step. -/
theorem first_step_success_singleton (env : Env) (st : AgentState) (task : String)
    (a : ActionDict) (n : String) (tool : Tool) (inp : String)
    (h1 : decide_next_action (env.oracle 0) = a)
    (h2 : a.status ≠ some "error")
    (h3 : a.tool_name = some n)
    (h4 : findTool n = some tool)
    (h5 : a.input = some inp)
    (h6 : (tool.function (env.ext 0) inp).status = "success") :
    execute_task env st task =
      ({ st with
          current_task := task,
          memory := st.memory ++ [⟨env.clock 0, a, tool.function (env.ext 0) inp⟩] },
       Except.ok [Entry.stepEntry 1 a (tool.function (env.ext 0) inp)]) := by
  subst h1
  unfold execute_task
  rw [show (5 : Nat) = 4 + 1 from rfl, execLoop_succ]
  simp only [List.length_nil]
  rw [if_neg h2]
  simp only [h3, h4, h5]
  rw [if_pos h6]
  simp [update_memory]

/-- Environment in which the oracle always proposes the web search tool and
the external search call succeeds. -/
def envC2 : Env :=
  { oracle := fun _ => .returns { tool_name := some "web_search", input := some "ai news" },
    ext := fun _ => .ok "payload",
    clock := fun _ => 42 }

/-- The action dict `envC2` makes the oracle produce. -/
def actC2 : ActionDict := { tool_name := some "web_search", input := some "ai news" }

/-- The registered web search tool. -/
def toolWeb : Tool :=
  { name := "web_search", description := "Search the web for information",
    function := search_web }

/-- Witness for C2 at a concrete environment. -/
theorem first_step_success_singleton_witness :
    actC2.status ≠ some "error" ∧
    findTool "web_search" = some toolWeb ∧
    (toolWeb.function (envC2.ext 0) "ai news").status = "success" ∧
    execute_task envC2 {} "find news" =
      ({ current_task := "find news",
         memory := [⟨42, actC2, ToolRes.success "results" "payload"⟩],
         context := [] },
       Except.ok [Entry.stepEntry 1 actC2 (ToolRes.success "results" "payload")]) :=
  ⟨by decide, rfl, rfl,
    first_step_success_singleton envC2 {} "find news" actC2 "web_search" toolWeb
      "ai news" rfl (by decide) rfl rfl rfl rfl⟩

/-- Every registered tool converts an exception in its external call into an
error-tagged result dict. -/
theorem findTool_exn (n : String) (t : Tool) (h : findTool n = some t)
    (m inp : String) : t.function (ExtOutcome.exn m) inp = ToolRes.error m := by
  have hmem : t ∈ tools := List.mem_of_find?_eq_some h
  simp only [tools, List.mem_cons, List.not_mem_nil, or_false] at hmem
  rcases hmem with h1 | h1 | h1 <;> subst h1 <;> rfl

/-- Writing a status field always leaves that status in the raw store,
whether the key was live, expired or absent. -/
theorem rawStatus_hset_of_status (s : Store) (now : Nat) (k : String)
    (u : HashUpdate) (v : String) (h : u.status = some v) :
    rawStatus (hset s now k u) k = some v := by
  unfold rawStatus hset
  cases hl : lookupLive s now k <;>
    simp [hl, applyUpdate, h]

/-- Environment whose oracle returns a JSON value that parses but is not a
Proposal: the dict has no tool_name key. -/
def envC4bad : Env :=
  { oracle := fun _ => .returns {},
    ext := fun _ => .ok "x", clock := fun _ => 0 }

/-- Environment whose oracle API call raises. -/
def envC4down : Env :=
  { oracle := fun _ => .raises "api down",
    ext := fun _ => .ok "x", clock := fun _ => 0 }

/-- C4 counterexample: when the oracle returns JSON that parses but cannot be
read as a Proposal (no tool_name key), the loop does not append a
DecisionFailed outcome; it raises a KeyError that escapes `execute_task` as
an execution-level fault, so the claim that such output always yields a
k-entry trajectory ending in DecisionFailed is false. -/
theorem decision_parse_fault_counterexample :
    (execute_task envC4bad {} "t").2 = Except.error "KeyError: tool_name" ∧
    (execute_task envC4bad {} "t").2 ≠
      Except.ok [Entry.errorEntry "Failed to decide next action"] :=
  ⟨rfl, by intro h; exact Except.noConfusion ((rfl :
      (execute_task envC4bad {} "t").2 = Except.error "KeyError: tool_name") ▸ h)⟩

/-- C4 amended: when the oracle call raises, or its output parses to a dict
whose status field is the string error (the client folds call failures and
JSON parse failures into such a dict), the loop appends a DecisionFailed
outcome as one final entry and terminates, with no retry; but when the
output parses to a dict without a status error tag and without a tool_name
key, the loop instead raises an execution-level KeyError fault. -/
theorem decision_failure_terminal (env : Env) (fuel current_step : Nat)
    (st : AgentState) (results : List Entry) :
    ((decide_next_action (env.oracle results.length)).status = some "error" →
      execLoop env (fuel + 1) current_step st results =
        (st, Except.ok (results ++ [Entry.errorEntry "Failed to decide next action"])) ∧
      (results ++ [Entry.errorEntry "Failed to decide next action"]).length
        = results.length + 1) ∧
    ((decide_next_action (env.oracle results.length)).status ≠ some "error" →
      (decide_next_action (env.oracle results.length)).tool_name = none →
      execLoop env (fuel + 1) current_step st results =
        (st, Except.error "KeyError: tool_name")) := by
  constructor
  · intro h
    rw [execLoop_succ]
    refine ⟨?_, by simp⟩
    rw [if_pos h]
  · intro h h'
    rw [execLoop_succ]
    rw [if_neg h]
    simp only [h']

/-- Witness for C4: the amended theorem applied at the two concrete
environments, one per disjunct of the amended behaviour. -/
theorem decision_failure_terminal_witness :
    (decide_next_action (envC4down.oracle 0)).status = some "error" ∧
    execLoop envC4down (4 + 1) 0 {} [] =
      ({}, Except.ok [Entry.errorEntry "Failed to decide next action"]) ∧
    (decide_next_action (envC4bad.oracle 0)).status ≠ some "error" ∧
    (decide_next_action (envC4bad.oracle 0)).tool_name = none ∧
    execLoop envC4bad (4 + 1) 0 {} [] = ({}, Except.error "KeyError: tool_name") :=
  ⟨rfl, ((decision_failure_terminal envC4down 4 0 {} []).1 rfl).1,
    by decide, rfl,
    (decision_failure_terminal envC4bad 4 0 {} []).2 (by decide) rfl⟩

/-- C5: when the oracle proposes a capability name that the registry does not
contain, the loop appends an outcome naming the requested capability and
terminates immediately; run at the first step this gives a one-entry
trajectory, and the lifecycle layer still marks the task completed. -/
theorem capability_not_found_terminal (env : Env) (s0 : Store)
    (t_run t_done : Nat) (task_id task : String) (st : AgentState)
    (a : ActionDict) (n : String)
    (h2 : a.status ≠ some "error")
    (h3 : a.tool_name = some n)
    (h4 : findTool n = none) :
    (∀ (fuel current_step : Nat) (stx : AgentState) (results : List Entry),
      decide_next_action (env.oracle results.length) = a →
      execLoop env (fuel + 1) current_step stx results =
        (stx, Except.ok (results ++ [Entry.errorEntry ("Tool " ++ n ++ " not found")]))) ∧
    (decide_next_action (env.oracle 0) = a →
      execute_task env st task =
        ({ st with current_task := task },
         Except.ok [Entry.errorEntry ("Tool " ++ n ++ " not found")]) ∧
      rawStatus ((execute_task_async env st s0 t_run t_done task_id task).2)
        (taskKey task_id) = some "completed") := by
  have key : ∀ (fuel current_step : Nat) (stx : AgentState) (results : List Entry),
      decide_next_action (env.oracle results.length) = a →
      execLoop env (fuel + 1) current_step stx results =
        (stx, Except.ok (results ++ [Entry.errorEntry ("Tool " ++ n ++ " not found")])) := by
    intro fuel current_step stx results h1
    rw [execLoop_succ]
    simp only [h1]
    rw [if_neg h2]
    simp only [h3, h4]
  refine ⟨key, fun h1 => ⟨?_, ?_⟩⟩
  · unfold execute_task
    rw [show (5 : Nat) = 4 + 1 from rfl]
    exact key 4 0 _ [] (by simpa using h1)
  · have hexec : execute_task env st task =
        ({ st with current_task := task },
         Except.ok [Entry.errorEntry ("Tool " ++ n ++ " not found")]) := by
      unfold execute_task
      rw [show (5 : Nat) = 4 + 1 from rfl]
      exact key 4 0 _ [] (by simpa using h1)
    unfold execute_task_async
    rw [hexec]
    exact rawStatus_hset_of_status _ _ _ _ _ rfl

/-- Environment whose oracle proposes an unregistered capability name. -/
def envC5 : Env :=
  { oracle := fun _ => .returns { tool_name := some "nonexistent", input := some "q" },
    ext := fun _ => .ok "x", clock := fun _ => 0 }

/-- The action dict `envC5` makes the oracle produce. -/
def actC5 : ActionDict := { tool_name := some "nonexistent", input := some "q" }

/-- Witness for C5 at a concrete environment. -/
theorem capability_not_found_terminal_witness :
    actC5.status ≠ some "error" ∧ findTool "nonexistent" = none ∧
    execute_task envC5 {} "find news" =
      ({ current_task := "find news" },
       Except.ok [Entry.errorEntry "Tool nonexistent not found"]) ∧
    rawStatus ((execute_task_async envC5 {} emptyStore 1 2 "id1" "find news").2)
      (taskKey "id1") = some "completed" :=
  ⟨by decide, rfl,
    ((capability_not_found_terminal envC5 emptyStore 1 2 "id1" "find news" {}
      actC5 "nonexistent" (by decide) rfl rfl).2 rfl).1,
    ((capability_not_found_terminal envC5 emptyStore 1 2 "id1" "find news" {}
      actC5 "nonexistent" (by decide) rfl rfl).2 rfl).2⟩

/-- C6: a failure inside a resolved capability is converted into an
error-tagged result (never propagating out of the loop), the step is
recorded in memory and in the trajectory with its step number, and the loop
advances to the next iteration with one unit of budget consumed. -/
theorem capability_error_recoverable (env : Env) (fuel current_step : Nat)
    (st : AgentState) (results : List Entry) (a : ActionDict) (n : String)
    (tool : Tool) (inp m : String)
    (h1 : decide_next_action (env.oracle results.length) = a)
    (h2 : a.status ≠ some "error")
    (h3 : a.tool_name = some n)
    (h4 : findTool n = some tool)
    (h5 : a.input = some inp)
    (h6 : env.ext results.length = ExtOutcome.exn m) :
    tool.function (ExtOutcome.exn m) inp = ToolRes.error m ∧
    execLoop env (fuel + 1) current_step st results =
      execLoop env fuel (current_step + 1)
        (update_memory st (env.clock results.length) a (ToolRes.error m))
        (results ++ [Entry.stepEntry (current_step + 1) a (ToolRes.error m)]) := by
  have hfn : tool.function (ExtOutcome.exn m) inp = ToolRes.error m :=
    findTool_exn n tool h4 m inp
  refine ⟨hfn, ?_⟩
  rw [execLoop_succ]
  simp only [h1]
  rw [if_neg h2]
  simp only [h3, h4, h5, h6, hfn]
  have hne : ¬ (ToolRes.error m).status = "success" := by simp [ToolRes.status]
  rw [if_neg hne]

/-- Environment whose oracle proposes the web search tool and whose external
search call raises. -/
def envC6 : Env :=
  { oracle := fun _ => .returns { tool_name := some "web_search", input := some "ai news" },
    ext := fun _ => .exn "network down", clock := fun _ => 7 }

/-- Witness for C6 at a concrete environment. -/
theorem capability_error_recoverable_witness :
    envC6.ext 0 = ExtOutcome.exn "network down" ∧
    toolWeb.function (ExtOutcome.exn "network down") "ai news" = ToolRes.error "network down" ∧
    execLoop envC6 (3 + 1) 0 {} [] =
      execLoop envC6 3 1
        (update_memory {} 7 actC2 (ToolRes.error "network down"))
        [Entry.stepEntry 1 actC2 (ToolRes.error "network down")] :=
  ⟨rfl,
    (capability_error_recoverable envC6 3 0 {} [] actC2 "web_search" toolWeb
      "ai news" "network down" rfl (by decide) rfl rfl rfl rfl).1,
    (capability_error_recoverable envC6 3 0 {} [] actC2 "web_search" toolWeb
      "ai news" "network down" rfl (by decide) rfl rfl rfl rfl).2⟩

/-- Branch equation: decision failure terminates the iteration. -/
theorem execLoop_eq_decide_error (env : Env) (fuel cs : Nat) (st : AgentState)
    (results : List Entry)
    (h : (decide_next_action (env.oracle results.length)).status = some "error") :
    execLoop env (fuel + 1) cs st results =
      (st, Except.ok (results ++ [Entry.errorEntry "Failed to decide next action"])) := by
  rw [execLoop_succ, if_pos h]

/-- Branch equation: a parsed dict without a tool_name key raises. -/
theorem execLoop_eq_keyerr_tool (env : Env) (fuel cs : Nat) (st : AgentState)
    (results : List Entry)
    (h : ¬ (decide_next_action (env.oracle results.length)).status = some "error")
    (htn : (decide_next_action (env.oracle results.length)).tool_name = none) :
    execLoop env (fuel + 1) cs st results = (st, Except.error "KeyError: tool_name") := by
  rw [execLoop_succ, if_neg h]
  simp only [htn]

/-- Branch equation: an unregistered capability name terminates the
iteration with a not-found outcome. -/
theorem execLoop_eq_not_found (env : Env) (fuel cs : Nat) (st : AgentState)
    (results : List Entry) (tn : String)
    (h : ¬ (decide_next_action (env.oracle results.length)).status = some "error")
    (htn : (decide_next_action (env.oracle results.length)).tool_name = some tn)
    (hft : findTool tn = none) :
    execLoop env (fuel + 1) cs st results =
      (st, Except.ok (results ++ [Entry.errorEntry ("Tool " ++ tn ++ " not found")])) := by
  rw [execLoop_succ, if_neg h]
  simp only [htn, hft]

/-- Branch equation: a parsed dict without an input key raises. -/
theorem execLoop_eq_keyerr_input (env : Env) (fuel cs : Nat) (st : AgentState)
    (results : List Entry) (tn : String) (tool : Tool)
    (h : ¬ (decide_next_action (env.oracle results.length)).status = some "error")
    (htn : (decide_next_action (env.oracle results.length)).tool_name = some tn)
    (hft : findTool tn = some tool)
    (hin : (decide_next_action (env.oracle results.length)).input = none) :
    execLoop env (fuel + 1) cs st results = (st, Except.error "KeyError: input") := by
  rw [execLoop_succ, if_neg h]
  simp only [htn, hft, hin]

/-- Branch equation: a success-tagged result terminates the loop after
logging the step. -/
theorem execLoop_eq_success (env : Env) (fuel cs : Nat) (st : AgentState)
    (results : List Entry) (tn : String) (tool : Tool) (inp : String)
    (h : ¬ (decide_next_action (env.oracle results.length)).status = some "error")
    (htn : (decide_next_action (env.oracle results.length)).tool_name = some tn)
    (hft : findTool tn = some tool)
    (hin : (decide_next_action (env.oracle results.length)).input = some inp)
    (hs : (tool.function (env.ext results.length) inp).status = "success") :
    execLoop env (fuel + 1) cs st results =
      (update_memory st (env.clock results.length)
        (decide_next_action (env.oracle results.length))
        (tool.function (env.ext results.length) inp),
       Except.ok (results ++ [Entry.stepEntry (cs + 1)
        (decide_next_action (env.oracle results.length))
        (tool.function (env.ext results.length) inp)])) := by
  rw [execLoop_succ, if_neg h]
  simp only [htn, hft, hin]
  rw [if_pos hs]

/-- Branch equation: a non-success result logs the step and continues with
the next iteration. -/
theorem execLoop_eq_continue (env : Env) (fuel cs : Nat) (st : AgentState)
    (results : List Entry) (tn : String) (tool : Tool) (inp : String)
    (h : ¬ (decide_next_action (env.oracle results.length)).status = some "error")
    (htn : (decide_next_action (env.oracle results.length)).tool_name = some tn)
    (hft : findTool tn = some tool)
    (hin : (decide_next_action (env.oracle results.length)).input = some inp)
    (hs : ¬ (tool.function (env.ext results.length) inp).status = "success") :
    execLoop env (fuel + 1) cs st results =
      execLoop env fuel (cs + 1)
        (update_memory st (env.clock results.length)
          (decide_next_action (env.oracle results.length))
          (tool.function (env.ext results.length) inp))
        (results ++ [Entry.stepEntry (cs + 1)
          (decide_next_action (env.oracle results.length))
          (tool.function (env.ext results.length) inp)]) := by
  rw [execLoop_succ, if_neg h]
  simp only [htn, hft, hin]
  rw [if_neg hs]

/-- The loop preserves `current_task` and only ever appends to memory. -/
theorem execLoop_state (env : Env) :
    ∀ (fuel current_step : Nat) (st : AgentState) (results : List Entry),
      (execLoop env fuel current_step st results).1.current_task = st.current_task ∧
      ∃ rest, (execLoop env fuel current_step st results).1.memory = st.memory ++ rest := by
  intro fuel
  induction fuel with
  | zero =>
    intro cs st results
    exact ⟨rfl, [], by simp [execLoop_zero]⟩
  | succ n ih =>
    intro cs st results
    by_cases h : (decide_next_action (env.oracle results.length)).status = some "error"
    · rw [execLoop_eq_decide_error env n cs st results h]
      exact ⟨rfl, [], by simp⟩
    · cases htn : (decide_next_action (env.oracle results.length)).tool_name with
      | none =>
        rw [execLoop_eq_keyerr_tool env n cs st results h htn]
        exact ⟨rfl, [], by simp⟩
      | some tn =>
        cases hft : findTool tn with
        | none =>
          rw [execLoop_eq_not_found env n cs st results tn h htn hft]
          exact ⟨rfl, [], by simp⟩
        | some tool =>
          cases hin : (decide_next_action (env.oracle results.length)).input with
          | none =>
            rw [execLoop_eq_keyerr_input env n cs st results tn tool h htn hft hin]
            exact ⟨rfl, [], by simp⟩
          | some inp =>
            by_cases hs :
                (tool.function (env.ext results.length) inp).status = "success"
            · rw [execLoop_eq_success env n cs st results tn tool inp h htn hft hin hs]
              exact ⟨rfl, [⟨env.clock results.length,
                decide_next_action (env.oracle results.length),
                tool.function (env.ext results.length) inp⟩],
                by simp [update_memory]⟩
            · rw [execLoop_eq_continue env n cs st results tn tool inp h htn hft hin hs]
              obtain ⟨h1, rest, h2⟩ := ih (cs + 1)
                (update_memory st (env.clock results.length)
                  (decide_next_action (env.oracle results.length))
                  (tool.function (env.ext results.length) inp))
                (results ++ [Entry.stepEntry (cs + 1)
                  (decide_next_action (env.oracle results.length))
                  (tool.function (env.ext results.length) inp)])
              refine ⟨h1, ⟨env.clock results.length,
                decide_next_action (env.oracle results.length),
                tool.function (env.ext results.length) inp⟩ :: rest, ?_⟩
              rw [h2]
              simp [update_memory]

/-- C1 amended: each invocation of `execute_task` sets `current_task` to the
given task on the shared agent state, and memory is append-only: the memory
the state carries when the execution starts (including entries logged by
earlier executions on the same module-level agent) is still a prefix of the
memory when it returns; nothing ever resets it. -/
theorem execute_task_shared_state (env : Env) (st : AgentState) (task : String) :
    (execute_task env st task).1.current_task = task ∧
    ∃ rest, (execute_task env st task).1.memory = st.memory ++ rest := by
  unfold execute_task
  obtain ⟨h1, rest, h2⟩ :=
    execLoop_state env 5 0 { st with current_task := task } []
  exact ⟨h1, rest, h2⟩

/-- C1 counterexample: running two tasks in sequence on the module-level
agent (as `app.py` does for every submitted task), the second execution does
not begin with an empty memory — the entry logged by the first execution is
still there, and is still visible in the memory after the second execution
finishes. -/
theorem fresh_state_counterexample :
    (execute_task envC2 {} "task A").1.memory =
      [⟨42, actC2, ToolRes.success "results" "payload"⟩] ∧
    (execute_task envC2 (execute_task envC2 {} "task A").1 "task B").1.memory =
      [⟨42, actC2, ToolRes.success "results" "payload"⟩,
       ⟨42, actC2, ToolRes.success "results" "payload"⟩] :=
  ⟨rfl, rfl⟩

/-- The proposal and result a trajectory entry records, when the entry is an
ordinary step outcome. -/
def stepPayload : Entry → Option (ActionDict × ToolRes)
  | .stepEntry _ a r => some (a, r)
  | .errorEntry _ => none

/-- When the loop returns normally, the new trajectory entries extend the
accumulated list, and the new memory entries correspond exactly (action and
result, in order) to the step outcomes among them. -/
theorem execLoop_memory_trace (env : Env) :
    ∀ (fuel current_step : Nat) (st : AgentState) (results : List Entry)
      (st' : AgentState) (l : List Entry),
      execLoop env fuel current_step st results = (st', Except.ok l) →
      ∃ newmem extra, l = results ++ extra ∧ st'.memory = st.memory ++ newmem ∧
        newmem.map (fun me => (me.action, me.result)) = extra.filterMap stepPayload := by
  intro fuel
  induction fuel with
  | zero =>
    intro cs st results st' l h
    rw [execLoop_zero] at h
    injection h with ha hb
    injection hb with hc
    subst ha; subst hc
    exact ⟨[], [], by simp, by simp, rfl⟩
  | succ n ih =>
    intro cs st results st' l h
    by_cases hst : (decide_next_action (env.oracle results.length)).status = some "error"
    · rw [execLoop_eq_decide_error env n cs st results hst] at h
      injection h with ha hb
      injection hb with hc
      subst ha; subst hc
      exact ⟨[], [Entry.errorEntry "Failed to decide next action"], rfl, by simp,
        by simp [stepPayload]⟩
    · cases htn : (decide_next_action (env.oracle results.length)).tool_name with
      | none =>
        rw [execLoop_eq_keyerr_tool env n cs st results hst htn] at h
        injection h with ha hb
        exact absurd hb (by simp)
      | some tn =>
        cases hft : findTool tn with
        | none =>
          rw [execLoop_eq_not_found env n cs st results tn hst htn hft] at h
          injection h with ha hb
          injection hb with hc
          subst ha; subst hc
          exact ⟨[], [Entry.errorEntry ("Tool " ++ tn ++ " not found")], rfl, by simp,
            by simp [stepPayload]⟩
        | some tool =>
          cases hin : (decide_next_action (env.oracle results.length)).input with
          | none =>
            rw [execLoop_eq_keyerr_input env n cs st results tn tool hst htn hft hin] at h
            injection h with ha hb
            exact absurd hb (by simp)
          | some inp =>
            by_cases hs :
                (tool.function (env.ext results.length) inp).status = "success"
            · rw [execLoop_eq_success env n cs st results tn tool inp hst htn hft hin hs] at h
              injection h with ha hb
              injection hb with hc
              subst ha; subst hc
              refine ⟨[⟨env.clock results.length,
                decide_next_action (env.oracle results.length),
                tool.function (env.ext results.length) inp⟩],
                [Entry.stepEntry (cs + 1)
                  (decide_next_action (env.oracle results.length))
                  (tool.function (env.ext results.length) inp)],
                rfl, by simp [update_memory], by simp [stepPayload]⟩
            · rw [execLoop_eq_continue env n cs st results tn tool inp hst htn hft hin hs] at h
              obtain ⟨newmem, extra, h1, h2, h3⟩ := ih (cs + 1) _ _ _ _ h
              refine ⟨⟨env.clock results.length,
                decide_next_action (env.oracle results.length),
                tool.function (env.ext results.length) inp⟩ :: newmem,
                Entry.stepEntry (cs + 1)
                  (decide_next_action (env.oracle results.length))
                  (tool.function (env.ext results.length) inp) :: extra,
                ?_, ?_, ?_⟩
              · rw [h1]; simp
              · rw [h2]; simp [update_memory]
              · simp only [List.map_cons, h3, List.filterMap_cons, stepPayload]

/-- C10: the terminal DecisionFailed and CapabilityNotFound outcomes carry
only an error message (they are the `errorEntry` shape, with no step index
and no proposal), and they are never logged to memory: the memory entries
added by an execution correspond exactly, action and result in order, to the
step outcomes in the returned trajectory — the entries whose capability was
actually invoked. -/
theorem terminal_outcomes_not_in_memory (env : Env) (st : AgentState)
    (task : String) (st' : AgentState) (l : List Entry)
    (h : execute_task env st task = (st', Except.ok l)) :
    (∃ newmem, st'.memory = st.memory ++ newmem ∧
      newmem.map (fun me => (me.action, me.result)) = l.filterMap stepPayload) ∧
    ∀ e ∈ l, stepPayload e = none → ∃ msg, e = Entry.errorEntry msg := by
  constructor
  · unfold execute_task at h
    obtain ⟨newmem, extra, h1, h2, h3⟩ := execLoop_memory_trace env 5 0 _ _ _ _ h
    refine ⟨newmem, h2, ?_⟩
    rw [h3, h1]
    simp
  · intro e _ hnone
    cases e with
    | errorEntry msg => exact ⟨msg, rfl⟩
    | stepEntry k a r => exact absurd hnone (by simp [stepPayload])

/-- Witness for C10 at a concrete environment: a run whose trajectory is one
CapabilityNotFound entry adds nothing to memory. -/
theorem terminal_outcomes_not_in_memory_witness :
    execute_task envC5 {} "t" =
      ({ current_task := "t" }, Except.ok [Entry.errorEntry "Tool nonexistent not found"]) ∧
    (∃ newmem, ({ current_task := "t" } : AgentState).memory =
      ({} : AgentState).memory ++ newmem ∧
      newmem.map (fun me => (me.action, me.result)) =
        [Entry.errorEntry "Tool nonexistent not found"].filterMap stepPayload) ∧
    ∀ e ∈ [Entry.errorEntry "Tool nonexistent not found"],
      stepPayload e = none → ∃ msg, e = Entry.errorEntry msg :=
  ⟨rfl,
    (terminal_outcomes_not_in_memory envC5 {} "t" _ _ rfl).1,
    (terminal_outcomes_not_in_memory envC5 {} "t" _ _ rfl).2⟩

/-- When, for every remaining iteration, the oracle proposes a registered
capability with an input and the external capability call raises, the loop
consumes all remaining budget and appends one error-tagged step outcome per
iteration. -/
theorem execLoop_all_error (env : Env) :
    ∀ (fuel current_step : Nat) (st : AgentState) (results : List Entry),
      (∀ i, results.length ≤ i → i < results.length + fuel →
        (¬ (decide_next_action (env.oracle i)).status = some "error") ∧
        (∃ n t, (decide_next_action (env.oracle i)).tool_name = some n ∧
          findTool n = some t) ∧
        (decide_next_action (env.oracle i)).input.isSome = true ∧
        (∃ m, env.ext i = ExtOutcome.exn m)) →
      ∃ st' extra, execLoop env fuel current_step st results =
          (st', Except.ok (results ++ extra)) ∧
        extra.length = fuel ∧
        ∀ e ∈ extra, ∃ k a m, e = Entry.stepEntry k a (ToolRes.error m) := by
  intro fuel
  induction fuel with
  | zero =>
    intro cs st results _
    exact ⟨st, [], by simp [execLoop_zero], rfl, by simp⟩
  | succ n ih =>
    intro cs st results hall
    obtain ⟨hst, ⟨tn, tool, htn, hft⟩, hin, m, hext⟩ :=
      hall results.length le_rfl (by omega)
    obtain ⟨inp, hinp⟩ := Option.isSome_iff_exists.mp hin
    have hfn : tool.function (env.ext results.length) inp = ToolRes.error m := by
      rw [hext]; exact findTool_exn tn tool hft m inp
    have hns : ¬ (tool.function (env.ext results.length) inp).status = "success" := by
      rw [hfn]; simp [ToolRes.status]
    have hstep := execLoop_eq_continue env n cs st results tn tool inp hst htn hft hinp hns
    rw [hfn] at hstep
    obtain ⟨st', extra, heq, hlen, herr⟩ := ih (cs + 1)
      (update_memory st (env.clock results.length)
        (decide_next_action (env.oracle results.length)) (ToolRes.error m))
      (results ++ [Entry.stepEntry (cs + 1)
        (decide_next_action (env.oracle results.length)) (ToolRes.error m)])
      (by
        intro i hi1 hi2
        simp only [List.length_append, List.length_cons, List.length_nil] at hi1 hi2
        exact hall i (by omega) (by omega))
    refine ⟨st', Entry.stepEntry (cs + 1)
      (decide_next_action (env.oracle results.length)) (ToolRes.error m) :: extra,
      ?_, ?_, ?_⟩
    · rw [hstep, heq]
      simp
    · simp [hlen]
    · intro e he
      rcases List.mem_cons.mp he with he | he
      · exact ⟨cs + 1, decide_next_action (env.oracle results.length), m, he⟩
      · exact herr e he

/-- C3: when the oracle proposes a registered capability with an input on
every step and every capability invocation returns an error-tagged result,
the loop exhausts the whole budget of max_steps = 5 and returns a trajectory
of exactly 5 error-tagged step outcomes, and the lifecycle layer marks the
task completed, not failed. -/
theorem all_error_exhausts_budget (env : Env) (st : AgentState) (s0 : Store)
    (t_run t_done : Nat) (task_id task : String)
    (hall : ∀ i, i < 5 →
      (¬ (decide_next_action (env.oracle i)).status = some "error") ∧
      (∃ n t, (decide_next_action (env.oracle i)).tool_name = some n ∧
        findTool n = some t) ∧
      (decide_next_action (env.oracle i)).input.isSome = true ∧
      (∃ m, env.ext i = ExtOutcome.exn m)) :
    ∃ st' l, execute_task env st task = (st', Except.ok l) ∧
      l.length = 5 ∧
      (∀ e ∈ l, ∃ k a m, e = Entry.stepEntry k a (ToolRes.error m)) ∧
      rawStatus ((execute_task_async env st s0 t_run t_done task_id task).2)
        (taskKey task_id) = some "completed" := by
  obtain ⟨st', extra, heq, hlen, herr⟩ :=
    execLoop_all_error env 5 0 { st with current_task := task } []
      (by intro i h1 h2; simp only [List.length_nil] at h1 h2; exact hall i (by omega))
  have hexec : execute_task env st task = (st', Except.ok extra) := by
    unfold execute_task
    rw [heq]
    simp
  refine ⟨st', extra, hexec, by simpa using hlen, herr, ?_⟩
  unfold execute_task_async
  rw [hexec]
  exact rawStatus_hset_of_status _ _ _ _ _ rfl

/-- Witness for C3 at a concrete environment: the oracle always proposes the
registered web search tool and the external search call always raises. -/
theorem all_error_exhausts_budget_witness :
    (∀ i, i < 5 →
      (¬ (decide_next_action (envC6.oracle i)).status = some "error") ∧
      (∃ n t, (decide_next_action (envC6.oracle i)).tool_name = some n ∧
        findTool n = some t) ∧
      (decide_next_action (envC6.oracle i)).input.isSome = true ∧
      (∃ m, envC6.ext i = ExtOutcome.exn m)) ∧
    ∃ st' l, execute_task envC6 {} "research" = (st', Except.ok l) ∧
      l.length = 5 ∧
      (∀ e ∈ l, ∃ k a m, e = Entry.stepEntry k a (ToolRes.error m)) ∧
      rawStatus ((execute_task_async envC6 {} emptyStore 1 2 "id3" "research").2)
        (taskKey "id3") = some "completed" := by
  have hall : ∀ i, i < 5 →
      (¬ (decide_next_action (envC6.oracle i)).status = some "error") ∧
      (∃ n t, (decide_next_action (envC6.oracle i)).tool_name = some n ∧
        findTool n = some t) ∧
      (decide_next_action (envC6.oracle i)).input.isSome = true ∧
      (∃ m, envC6.ext i = ExtOutcome.exn m) := by
    intro i _
    exact ⟨fun hc => Option.noConfusion hc,
      ⟨"web_search", toolWeb, rfl, rfl⟩, rfl, ⟨"network down", rfl⟩⟩
  exact ⟨hall,
    all_error_exhausts_budget envC6 {} emptyStore 1 2 "id3" "research" hall⟩

/-- `hset` leaves every other key untouched. -/
theorem hset_ne (s : Store) (now : Nat) (k : String) (u : HashUpdate)
    (k' : String) (h : k' ≠ k) : hset s now k u k' = s k' := by
  unfold hset
  rw [if_neg h]

/-- `expire` leaves every other key untouched. -/
theorem expire_ne (s : Store) (now : Nat) (k : String) (secs : Nat)
    (k' : String) (h : k' ≠ k) : expire s now k secs k' = s k' := by
  unfold expire
  cases lookupLive s now k with
  | none => rfl
  | some e => simp [h]

/-- Updating a live key rewrites the named fields and keeps the TTL. -/
theorem hset_at_live (s : Store) (now : Nat) (k : String) (u : HashUpdate)
    (e : StoreEntry) (he : s k = some e) (hl : liveAt now e = true) :
    hset s now k u k = some ⟨applyUpdate e.hash u, e.expires_at⟩ := by
  unfold hset lookupLive
  rw [if_pos rfl, he]
  simp [hl]

/-- The record `create_task` writes: the pending hash with a one hour TTL,
when the identifier is fresh. -/
theorem create_task_store_at (s : Store) (t0 : Nat) (task_id task : String)
    (hfresh : s (taskKey task_id) = none) :
    create_task_store s t0 task_id task (taskKey task_id) =
      some ⟨{ task := some task, status := some "pending",
              results := some (.raw ""), error := some "" }, some (t0 + 3600)⟩ := by
  unfold create_task_store expire hset lookupLive
  simp [hfresh, applyUpdate, liveAt]

/-- `create_task` leaves every other key untouched. -/
theorem create_task_store_ne (s : Store) (t0 : Nat) (task_id task : String)
    (k : String) (h : k ≠ taskKey task_id) :
    create_task_store s t0 task_id task k = s k := by
  unfold create_task_store
  rw [expire_ne _ _ _ _ _ h, hset_ne _ _ _ _ _ h]

/-- The background execution leaves every other key untouched. -/
theorem execute_task_async_ne (env : Env) (st : AgentState) (s : Store)
    (t_run t_done : Nat) (task_id desc k : String) (h : k ≠ taskKey task_id) :
    (execute_task_async env st s t_run t_done task_id desc).2 k = s k := by
  unfold execute_task_async
  rcases hexec : execute_task env st desc with ⟨st', r⟩
  cases r with
  | ok results =>
    show hset (hset s t_run (taskKey task_id) _) t_done (taskKey task_id) _ k = s k
    rw [hset_ne _ _ _ _ _ h, hset_ne _ _ _ _ _ h]
  | error e =>
    show hset (hset s t_run (taskKey task_id) _) t_done (taskKey task_id) _ k = s k
    rw [hset_ne _ _ _ _ _ h, hset_ne _ _ _ _ _ h]

/-- C7: each task record passes through exactly the chain pending, then
running, then one terminal state: the submission write leaves it pending,
the first write of the background execution makes it running, and the final
write makes it completed exactly when the loop returned normally and failed
exactly when the loop raised; moreover the whole lifecycle of one task
touches no other key of the store, so no operation of another task moves a
record out of a terminal state. -/
theorem task_state_machine (env : Env) (st : AgentState) (s0 : Store)
    (t0 t_run t_done : Nat) (task_id task : String)
    (hfresh : s0 (taskKey task_id) = none) :
    rawStatus s0 (taskKey task_id) = none ∧
    rawStatus (create_task_store s0 t0 task_id task) (taskKey task_id) = some "pending" ∧
    rawStatus (hset (create_task_store s0 t0 task_id task) t_run (taskKey task_id)
      { status := some "running" }) (taskKey task_id) = some "running" ∧
    ((∃ l, (execute_task env st task).2 = Except.ok l) →
      rawStatus ((execute_task_async env st (create_task_store s0 t0 task_id task)
        t_run t_done task_id task).2) (taskKey task_id) = some "completed") ∧
    ((∃ m, (execute_task env st task).2 = Except.error m) →
      rawStatus ((execute_task_async env st (create_task_store s0 t0 task_id task)
        t_run t_done task_id task).2) (taskKey task_id) = some "failed") ∧
    (∀ k, k ≠ taskKey task_id →
      (execute_task_async env st (create_task_store s0 t0 task_id task)
        t_run t_done task_id task).2 k = s0 k) := by
  refine ⟨?_, ?_, ?_, ?_, ?_, ?_⟩
  · unfold rawStatus
    rw [hfresh]
    rfl
  · unfold rawStatus
    rw [create_task_store_at s0 t0 task_id task hfresh]
    rfl
  · exact rawStatus_hset_of_status _ _ _ _ _ rfl
  · rintro ⟨l, hl⟩
    unfold execute_task_async
    rcases hexec : execute_task env st task with ⟨st2, r⟩
    rw [hexec] at hl
    have hl' : r = Except.ok l := hl
    subst hl'
    exact rawStatus_hset_of_status _ _ _ _ _ rfl
  · rintro ⟨m, hm⟩
    unfold execute_task_async
    rcases hexec : execute_task env st task with ⟨st2, r⟩
    rw [hexec] at hm
    have hm' : r = Except.error m := hm
    subst hm'
    exact rawStatus_hset_of_status _ _ _ _ _ rfl
  · intro k hk
    rw [execute_task_async_ne env st _ t_run t_done task_id task k hk]
    exact create_task_store_ne s0 t0 task_id task k hk

/-- Witness for C7 at a concrete fresh identifier, with both a normal run
(the loop of `envC2` succeeds at once) and a raising run (`envC4bad` makes
the loop raise a KeyError). -/
theorem task_state_machine_witness :
    emptyStore (taskKey "w7") = none ∧
    rawStatus (create_task_store emptyStore 1000 "w7" "t") (taskKey "w7") = some "pending" ∧
    rawStatus (hset (create_task_store emptyStore 1000 "w7" "t") 1001 (taskKey "w7")
      { status := some "running" }) (taskKey "w7") = some "running" ∧
    rawStatus ((execute_task_async envC2 {} (create_task_store emptyStore 1000 "w7" "t")
      1001 1002 "w7" "t").2) (taskKey "w7") = some "completed" ∧
    rawStatus ((execute_task_async envC4bad {} (create_task_store emptyStore 1000 "w7" "t")
      1001 1002 "w7" "t").2) (taskKey "w7") = some "failed" ∧
    (execute_task_async envC2 {} (create_task_store emptyStore 1000 "w7" "t")
      1001 1002 "w7" "t").2 "task:other" = emptyStore "task:other" :=
  ⟨rfl,
    (task_state_machine envC2 {} emptyStore 1000 1001 1002 "w7" "t" rfl).2.1,
    (task_state_machine envC2 {} emptyStore 1000 1001 1002 "w7" "t" rfl).2.2.1,
    (task_state_machine envC2 {} emptyStore 1000 1001 1002 "w7" "t" rfl).2.2.2.1
      ⟨[Entry.stepEntry 1 actC2 (ToolRes.success "results" "payload")], rfl⟩,
    (task_state_machine envC4bad {} emptyStore 1000 1001 1002 "w7" "t" rfl).2.2.2.2.1
      ⟨"KeyError: tool_name", rfl⟩,
    (task_state_machine envC2 {} emptyStore 1000 1001 1002 "w7" "t" rfl).2.2.2.2.2
      "task:other" (by decide)⟩

/-- C8: a status response populates the results key only when the record is
completed and the error key only when it is failed; no response carries
both, and responses for pending or running records carry neither. -/
theorem status_response_exclusive (s : Store) (now : Nat) (task_id : String)
    (r : StatusResponse)
    (h : get_task_status s now task_id = GetStatusResult.ok r) :
    (r.results.isSome = true → r.status = "completed") ∧
    (r.error.isSome = true → r.status = "failed") ∧
    ¬ (r.results.isSome = true ∧ r.error.isSome = true) ∧
    ((r.status = "pending" ∨ r.status = "running") →
      r.results = none ∧ r.error = none) := by
  unfold get_task_status at h
  cases hga : hgetall s now (taskKey task_id) with
  | none =>
    rw [hga] at h
    exact absurd h (by simp)
  | some hsh =>
    rw [hga] at h
    have h' : buildStatusResponse task_id hsh = GetStatusResult.ok r := h
    unfold buildStatusResponse at h'
    by_cases hc : hsh.status.getD "unknown" = "completed"
    · rw [if_pos hc] at h'
      cases hd : decodeResults hsh.results with
      | error m =>
        rw [hd] at h'
        exact absurd h' (by simp)
      | ok l =>
        rw [hd] at h'
        have h'' : GetStatusResult.ok
            { task_id := task_id, task := hsh.task.getD "",
              status := hsh.status.getD "unknown",
              results := some l, error := none } = GetStatusResult.ok r := h'
        injection h'' with hr
        subst hr
        refine ⟨fun _ => hc, fun he => absurd he (by simp),
          fun hb => absurd hb.2 (by simp), ?_⟩
        rintro (hp | hp) <;> exact absurd (hc.symm.trans hp) (by decide)
    · rw [if_neg hc] at h'
      by_cases hf : hsh.status.getD "unknown" = "failed"
      · rw [if_pos hf] at h'
        have h'' : GetStatusResult.ok
            { task_id := task_id, task := hsh.task.getD "",
              status := hsh.status.getD "unknown",
              results := none, error := some (hsh.error.getD "Unknown error") } =
            GetStatusResult.ok r := h'
        injection h'' with hr
        subst hr
        refine ⟨fun he => absurd he (by simp), fun _ => hf,
          fun hb => absurd hb.1 (by simp), ?_⟩
        rintro (hp | hp) <;> exact absurd (hf.symm.trans hp) (by decide)
      · rw [if_neg hf] at h'
        have h'' : GetStatusResult.ok
            { task_id := task_id, task := hsh.task.getD "",
              status := hsh.status.getD "unknown",
              results := none, error := none } = GetStatusResult.ok r := h'
        injection h'' with hr
        subst hr
        exact ⟨fun he => absurd he (by simp), fun he => absurd he (by simp),
          fun hb => absurd hb.1 (by simp), fun _ => ⟨rfl, rfl⟩⟩

/-- A store holding one completed record, used to witness C8. -/
def storeC8 : Store := fun k =>
  if k = taskKey "w8" then
    some ⟨{ task := some "t", status := some "completed",
            results := some (.jsonOf [Entry.errorEntry "x"]), error := some "" },
          some 5000⟩
  else none

/-- The response `storeC8` produces. -/
def respC8 : StatusResponse :=
  { task_id := "w8", task := "t", status := "completed",
    results := some [Entry.errorEntry "x"], error := none }

/-- Witness for C8 at a concrete completed record. -/
theorem status_response_exclusive_witness :
    get_task_status storeC8 10 "w8" = GetStatusResult.ok respC8 ∧
    (respC8.results.isSome = true → respC8.status = "completed") ∧
    (respC8.error.isSome = true → respC8.status = "failed") ∧
    ¬ (respC8.results.isSome = true ∧ respC8.error.isSome = true) ∧
    ((respC8.status = "pending" ∨ respC8.status = "running") →
      respC8.results = none ∧ respC8.error = none) :=
  ⟨rfl,
    (status_response_exclusive storeC8 10 "w8" respC8 rfl).1,
    (status_response_exclusive storeC8 10 "w8" respC8 rfl).2.1,
    (status_response_exclusive storeC8 10 "w8" respC8 rfl).2.2.1,
    (status_response_exclusive storeC8 10 "w8" respC8 rfl).2.2.2⟩

/-- After the full lifecycle of a fresh identifier, with both background
writes happening inside the retention window, the key holds some hash whose
expiry is exactly one hour after submission. -/
theorem lifecycle_entry (env : Env) (st : AgentState) (s0 : Store)
    (t0 t_run t_done : Nat) (task_id task : String)
    (hfresh : s0 (taskKey task_id) = none)
    (h1 : t_run < t0 + 3600) (h2 : t_done < t0 + 3600) :
    ∃ hsh : TaskHash,
      (execute_task_async env st (create_task_store s0 t0 task_id task)
        t_run t_done task_id task).2 (taskKey task_id) =
      some ⟨hsh, some (t0 + 3600)⟩ := by
  have hc := create_task_store_at s0 t0 task_id task hfresh
  have hrun := hset_at_live (create_task_store s0 t0 task_id task) t_run
    (taskKey task_id) { status := some "running" } _ hc (by simp [liveAt, h1])
  unfold execute_task_async
  rcases hexec : execute_task env st task with ⟨st2, r⟩
  cases r with
  | ok results =>
    have hfin := hset_at_live _ t_done (taskKey task_id)
      { status := some "completed", results := some (.jsonOf results), error := some "" }
      _ hrun (by simp [liveAt, h2])
    exact ⟨_, hfin⟩
  | error e =>
    have hfin := hset_at_live _ t_done (taskKey task_id)
      { status := some "failed", error := some e }
      _ hrun (by simp [liveAt, h2])
    exact ⟨_, hfin⟩

/-- C9: once a submitted task has run to its terminal record (with the
background writes inside the retention window), every `get_status` read
before one hour after submission returns the same response, and every read
at or after that moment returns not-found. -/
theorem get_status_idempotent_until_expiry (env : Env) (st : AgentState)
    (s0 : Store) (t0 t_run t_done : Nat) (task_id task : String)
    (hfresh : s0 (taskKey task_id) = none)
    (h1 : t_run < t0 + 3600) (h2 : t_done < t0 + 3600) :
    (∀ n n', n < t0 + 3600 → n' < t0 + 3600 →
      get_task_status ((execute_task_async env st (create_task_store s0 t0 task_id task)
        t_run t_done task_id task).2) n task_id =
      get_task_status ((execute_task_async env st (create_task_store s0 t0 task_id task)
        t_run t_done task_id task).2) n' task_id) ∧
    (∀ n, t0 + 3600 ≤ n →
      get_task_status ((execute_task_async env st (create_task_store s0 t0 task_id task)
        t_run t_done task_id task).2) n task_id = GetStatusResult.notFound) := by
  obtain ⟨hsh, hkey⟩ :=
    lifecycle_entry env st s0 t0 t_run t_done task_id task hfresh h1 h2
  have hg : ∀ n, n < t0 + 3600 →
      hgetall ((execute_task_async env st (create_task_store s0 t0 task_id task)
        t_run t_done task_id task).2) n (taskKey task_id) = some hsh := by
    intro n hn
    unfold hgetall lookupLive
    rw [hkey]
    simp [liveAt, hn]
  have hgn : ∀ n, t0 + 3600 ≤ n →
      hgetall ((execute_task_async env st (create_task_store s0 t0 task_id task)
        t_run t_done task_id task).2) n (taskKey task_id) = none := by
    intro n hn
    unfold hgetall lookupLive
    rw [hkey]
    simp [liveAt, Nat.not_lt.mpr hn]
  constructor
  · intro n n' hn hn'
    unfold get_task_status
    rw [hg n hn, hg n' hn']
  · intro n hn
    unfold get_task_status
    rw [hgn n hn]

/-- Witness for C9 at a concrete lifecycle. -/
theorem get_status_idempotent_until_expiry_witness :
    emptyStore (taskKey "w9") = none ∧ 1001 < 1000 + 3600 ∧ 1002 < 1000 + 3600 ∧
    get_task_status ((execute_task_async envC2 {}
      (create_task_store emptyStore 1000 "w9" "t") 1001 1002 "w9" "t").2) 10 "w9" =
    get_task_status ((execute_task_async envC2 {}
      (create_task_store emptyStore 1000 "w9" "t") 1001 1002 "w9" "t").2) 20 "w9" ∧
    get_task_status ((execute_task_async envC2 {}
      (create_task_store emptyStore 1000 "w9" "t") 1001 1002 "w9" "t").2) 4600 "w9" =
      GetStatusResult.notFound :=
  ⟨rfl, by decide, by decide,
    (get_status_idempotent_until_expiry envC2 {} emptyStore 1000 1001 1002 "w9" "t"
      rfl (by decide) (by decide)).1 10 20 (by decide) (by decide),
    (get_status_idempotent_until_expiry envC2 {} emptyStore 1000 1001 1002 "w9" "t"
      rfl (by decide) (by decide)).2 4600 (by decide)⟩

end Agent
